import Mathlib

/-!
Verification of the `audio_tools` delay-line core (`src/delay.rs`).

Shallow embedding conventions:

* `f32` sample values (buffer contents, `input_sample`, `feedback_amount`,
  the return value of `tick`) are modelled as exact rationals `ℚ`; the claims
  under study are about which stored value ends up where, never about
  floating-point rounding, so the `+` and `*` appearing in `tick` are carried
  over structurally onto `ℚ`.
* The `delay_samples : f32` argument of `tick` is modelled by `F32`, which
  keeps the cases that matter for the `as usize` conversion (NaN, infinities,
  a finite rational value).  Rust's float-to-integer `as` cast truncates
  toward zero and saturates to the target range, with NaN mapped to 0.
* `usize` values (`write_index`, `length_samples`, indices) are modelled as
  `Nat`; `i32` intermediates are modelled as `Int` together with explicit
  two's-complement wrapping `i32wrap` (reduction into `[-2^31, 2^31)`),
  which is what the `as i32` casts in `CircularBuffer::read` perform, and
  what `i32` arithmetic performs when built with overflow checks disabled.
  (With overflow checks enabled an overflowing `i32` addition/subtraction
  aborts instead of wrapping; every counterexample below is chosen so that
  no intermediate `i32` addition or subtraction overflows, so the observable
  behaviour at those inputs is the same under either compilation profile —
  only the always-wrapping casts are exercised.)
* Rust panics (the explicit `panic!` in `read`, and the implicit index
  out-of-bounds panics of `self.buffer[i]`) are modelled as `Except` errors
  `DelayError.requestedDelayExceedsCapacity` and
  `DelayError.indexOutOfBounds` respectively.
-/

/-- The single explicit error of the core (`panic!("Requested delay length is
greater than buffer size!")`), plus the implicit index out-of-bounds panic of
`Vec` indexing. -/
inductive DelayError where
  | requestedDelayExceedsCapacity : DelayError
  | indexOutOfBounds : DelayError
deriving DecidableEq, Repr

/-- Two's-complement wrap of an integer into the `i32` range `[-2^31, 2^31)`.
This is the semantics of `as i32` casts, and of `i32` addition/subtraction
when overflow checks are disabled. -/
def i32wrap (x : Int) : Int :=
  (x + 2147483648) % 4294967296 - 2147483648

/-- A `usize` value cast to `i32` (`write_index as i32`,
`length_samples as i32`, `self.buffer.len() as i32`). -/
def i32ofNat (n : Nat) : Int :=
  i32wrap n

/-- An `i32` value cast to `usize` (`read_index as usize`): sign extension
followed by reinterpretation, i.e. reduction modulo `2^64`. -/
def usizeOfI32 (x : Int) : Nat :=
  (x % 18446744073709551616).toNat

/-- Model of the `f32` argument `delay_samples` of `SimpleDelay::tick`,
keeping exactly the distinctions the `as usize` cast can observe: NaN, the
two infinities, and finite values (finite `f32` values are a subset of `ℚ`). -/
inductive F32 where
  | nan : F32
  | posInf : F32
  | negInf : F32
  | finite : ℚ → F32
deriving DecidableEq, Repr

/-- Largest `usize` value, `2^64 - 1`. -/
def usizeMax : Nat := 18446744073709551615

/-- Rust's `f32 as usize` cast: NaN goes to 0, the value is truncated toward
zero, and the result saturates into `[0, usizeMax]`.  For a positive rational
`q`, truncation toward zero is the integer division `q.num / q.den`. -/
def F32.toUsize : F32 → Nat
  | F32.nan => 0
  | F32.posInf => usizeMax
  | F32.negInf => 0
  | F32.finite q => if q ≤ 0 then 0 else min (q.num / (q.den : Int)).toNat usizeMax

/-- Model of `struct CircularBuffer { buffer: Vec<f32>, write_index: usize }`. -/
structure CircularBuffer where
  buffer : List ℚ
  write_index : Nat
deriving DecidableEq, Repr

/-- Model of `CircularBuffer::new(buffer_size)`: `buffer: vec![0.0; buffer_size]`,
`write_index: 0`.  The constructor itself never fails, also for size 0. -/
def CircularBuffer.new (buffer_size : Nat) : CircularBuffer :=
  { buffer := List.replicate buffer_size 0, write_index := 0 }

/-- Model of `CircularBuffer::write`: stores `value` at `buffer[write_index]`
(an out-of-range index panics, modelled as `indexOutOfBounds`), increments
the cursor, and resets it to 0 when it reaches `buffer.len()`. -/
def CircularBuffer.write (cb : CircularBuffer) (value : ℚ) :
    Except DelayError CircularBuffer :=
  if cb.write_index < cb.buffer.length then
    Except.ok
      { buffer := cb.buffer.set cb.write_index value
        write_index :=
          if cb.write_index + 1 = cb.buffer.length then 0
          else cb.write_index + 1 }
  else
    Except.error DelayError.indexOutOfBounds

/-- The index computation of `CircularBuffer::read`:
`let mut read_index = self.write_index as i32 - length_samples as i32;
 if read_index < 0 { read_index += self.buffer.len() as i32; }`. -/
def readIndexI32 (w length_samples len : Nat) : Int :=
  let read_index := i32wrap (i32ofNat w - i32ofNat length_samples)
  if read_index < 0 then i32wrap (read_index + i32ofNat len) else read_index

/-- Model of `CircularBuffer::read`: panics with the capacity message when
`length_samples > self.buffer.len()`; otherwise computes the read index via
signed `i32` scratch arithmetic and returns `self.buffer[read_index as usize]`
(an out-of-range index panics, modelled as `indexOutOfBounds`). -/
def CircularBuffer.read (cb : CircularBuffer) (length_samples : Nat) :
    Except DelayError ℚ :=
  if length_samples > cb.buffer.length then
    Except.error DelayError.requestedDelayExceedsCapacity
  else
    match cb.buffer[usizeOfI32 (readIndexI32 cb.write_index length_samples cb.buffer.length)]? with
    | some v => Except.ok v
    | none => Except.error DelayError.indexOutOfBounds

/-- Model of `fn seconds_to_samples(seconds: f32, sample_rate: u32) -> f32`. -/
def seconds_to_samples (seconds : ℚ) (sample_rate : Nat) : ℚ :=
  (sample_rate : ℚ) * seconds

/-- Model of `pub struct SimpleDelay { buffer: CircularBuffer }`. -/
structure SimpleDelay where
  buffer : CircularBuffer
deriving DecidableEq, Repr

/-- Model of `SimpleDelay::new(buffer_size)`. -/
def SimpleDelay.new (buffer_size : Nat) : SimpleDelay :=
  { buffer := CircularBuffer.new buffer_size }

/-- Model of `SimpleDelay::tick`: reads at `delay_samples as usize` from the buffer
state prior to this tick, then writes `input_sample + (output *
feedback_amount)` and returns `output` together with the updated delay.
A panic in either step aborts the tick (error propagation). -/
def SimpleDelay.tick (d : SimpleDelay) (input_sample : ℚ) (delay_samples : F32)
    (feedback_amount : ℚ) : Except DelayError (ℚ × SimpleDelay) :=
  match d.buffer.read delay_samples.toUsize with
  | Except.error e => Except.error e
  | Except.ok output =>
    match d.buffer.write (input_sample + (output * feedback_amount)) with
    | Except.error e => Except.error e
    | Except.ok buffer => Except.ok (output, { buffer := buffer })

/-- Model of `pub struct DelayTap(pub f32, pub f32)`: a plain pair of samples, no
behaviour (kept for completeness of the data model). -/
structure DelayTap where
  fst : ℚ
  snd : ℚ
deriving DecidableEq, Repr

/-- Well-formedness of a buffer state: the write cursor is strictly inside
the storage.  `CircularBuffer::new` establishes it for positive capacity and
every successful `write` preserves it. -/
def CircularBuffer.wf (cb : CircularBuffer) : Prop :=
  cb.write_index < cb.buffer.length

instance (cb : CircularBuffer) : Decidable cb.wf := by
  unfold CircularBuffer.wf; infer_instance

/-- A sequence of writes, left to right (`w_0` first). -/
def writeSeq (cb : CircularBuffer) : List ℚ → Except DelayError CircularBuffer
  | [] => Except.ok cb
  | v :: ws =>
    match cb.write v with
    | Except.ok cb' => writeSeq cb' ws
    | Except.error e => Except.error e

/-- A sequence of `n` identical ticks, tracking only the delay state. -/
def tickN (d : SimpleDelay) (input_sample : ℚ) (delay_samples : F32)
    (feedback_amount : ℚ) : Nat → Except DelayError SimpleDelay
  | 0 => Except.ok d
  | n + 1 =>
    match tickN d input_sample delay_samples feedback_amount n with
    | Except.ok d' =>
      match d'.tick input_sample delay_samples feedback_amount with
      | Except.ok out => Except.ok out.2
      | Except.error e => Except.error e
    | Except.error e => Except.error e

example : (CircularBuffer.new 4).read 1 = Except.ok 0 := rfl
example : (CircularBuffer.new 4).read 5 =
    Except.error DelayError.requestedDelayExceedsCapacity := rfl
example : writeSeq (CircularBuffer.new 4) [1, 2, 3, 4] =
    Except.ok { buffer := [1, 2, 3, 4], write_index := 0 } := rfl
example : (writeSeq (CircularBuffer.new 4) [1, 2, 3, 4]).bind
    (fun st => st.read 1) = Except.ok 4 := rfl
example : (writeSeq (CircularBuffer.new 4) [1, 2, 3, 4]).bind
    (fun st => st.read 4) = Except.ok 1 := rfl
example : (writeSeq (CircularBuffer.new 4) [1, 2, 3, 4]).bind
    (fun st => st.read 0) = Except.ok 1 := rfl
example : (F32.finite (5 / 2)).toUsize = 2 := by
  norm_num [F32.toUsize, usizeMax]
  decide
example : (F32.finite (-3 / 2)).toUsize = 0 := by
  norm_num [F32.toUsize]

/-! ### Core index arithmetic -/

theorem i32wrap_eq_self {x : Int} (h1 : -2147483648 ≤ x) (h2 : x < 2147483648) :
    i32wrap x = x := by
  unfold i32wrap
  omega

/-- For a well-formed cursor `w < len`, a request `k ≤ len`, and a capacity
of at most `2^31`, the signed-scratch index computation of `read` produces
exactly the mathematical value `w - k`, corrected by `+ len` when negative. -/
theorem readIndexI32_eq (w k len : Nat) (hw : w < len) (hk : k ≤ len)
    (hlen : len ≤ 2147483648) :
    readIndexI32 w k len = (w : Int) - k + (if k ≤ w then 0 else (len : Int)) := by
  simp only [readIndexI32, i32ofNat, i32wrap]
  split_ifs <;> omega

/-- Under the same bounds, the final `as usize` cast of the read index yields
the true mathematical modulus `(w - k) mod len`, written on `Nat` as
`(w + len - k) % len`. -/
theorem usizeOfI32_readIndex (w k len : Nat) (hw : w < len) (hk : k ≤ len)
    (hlen : len ≤ 2147483648) :
    usizeOfI32 (readIndexI32 w k len) = (w + len - k) % len := by
  rw [readIndexI32_eq w k len hw hk hlen]
  rcases le_or_lt k w with h | h
  · have h1 : usizeOfI32 ((w : Int) - k + (if k ≤ w then 0 else (len : Int)))
        = w - k := by
      rw [if_pos h]; unfold usizeOfI32; omega
    have h2 : w + len - k = (w - k) + len := by omega
    rw [h1, h2, Nat.add_mod_right, Nat.mod_eq_of_lt (by omega)]
  · have h1 : usizeOfI32 ((w : Int) - k + (if k ≤ w then 0 else (len : Int)))
        = w + len - k := by
      rw [if_neg (by omega)]; unfold usizeOfI32; omega
    rw [h1, Nat.mod_eq_of_lt (by omega)]

/-- The same statement phrased with the signed mathematical modulo of the
spec: the slot read is `((write_cursor - k : ℤ) mod capacity).toNat`. -/
theorem usizeOfI32_readIndex_emod (w k len : Nat) (hw : w < len) (hk : k ≤ len)
    (hlen : len ≤ 2147483648) :
    usizeOfI32 (readIndexI32 w k len) = (((w : Int) - k) % (len : Int)).toNat := by
  rw [usizeOfI32_readIndex w k len hw hk hlen]
  have h2 : ((w + len - k : Nat) : Int) = (w : Int) - k + (len : Int) * 1 := by omega
  have h1 : ((w : Int) - k) % (len : Int) = ((w + len - k : Nat) : Int) % (len : Int) := by
    rw [h2, Int.add_mul_emod_self_left]
  rw [h1, ← Int.ofNat_emod, Int.toNat_ofNat]

/-! ### Read and write specifications -/

/-- Successful read: for a well-formed buffer of capacity at most `2^31` and
`k ≤ capacity`, `read k` returns the storage element at the true-modulo
index `(write_index + capacity - k) % capacity`. -/
theorem CircularBuffer.read_ok (cb : CircularBuffer) (k : Nat) (hwf : cb.wf)
    (hcap : cb.buffer.length ≤ 2147483648) (hk : k ≤ cb.buffer.length) :
    cb.read k =
      Except.ok (cb.buffer.getD ((cb.write_index + cb.buffer.length - k) % cb.buffer.length) 0) := by
  unfold CircularBuffer.read
  rw [if_neg (by omega)]
  rw [usizeOfI32_readIndex _ _ _ hwf hk hcap]
  have hlt : (cb.write_index + cb.buffer.length - k) % cb.buffer.length
      < cb.buffer.length := Nat.mod_lt _ (by unfold CircularBuffer.wf at hwf; omega)
  rw [List.getElem?_eq_getElem hlt, List.getD_eq_getElem?_getD,
    List.getElem?_eq_getElem hlt]
  rfl

/-- The function `read` reports `requestedDelayExceedsCapacity` exactly for requests
beyond the capacity — with no bound on the capacity: the guard is the first
thing `read` does, on unconverted `usize` values. -/
theorem CircularBuffer.read_rdec_iff (cb : CircularBuffer) (k : Nat) :
    cb.read k = Except.error DelayError.requestedDelayExceedsCapacity ↔
      k > cb.buffer.length := by
  unfold CircularBuffer.read
  split_ifs with h
  · simp [h]
  · simp only [iff_false, h]
    match cb.buffer[usizeOfI32 (readIndexI32 cb.write_index k cb.buffer.length)]? with
    | some v => simp
    | none => simp

/-- Successful write: the value lands in the slot the cursor pointed at,
every other slot is untouched, the storage length is unchanged, and the
cursor advances by one, wrapping to 0 at the capacity. -/
theorem CircularBuffer.write_ok (cb : CircularBuffer) (v : ℚ) (hwf : cb.wf) :
    cb.write v = Except.ok
      { buffer := cb.buffer.set cb.write_index v
        write_index := (cb.write_index + 1) % cb.buffer.length } := by
  unfold CircularBuffer.wf at hwf
  unfold CircularBuffer.write
  rw [if_pos hwf]
  have h : (if cb.write_index + 1 = cb.buffer.length then 0 else cb.write_index + 1)
      = (cb.write_index + 1) % cb.buffer.length := by
    split_ifs with h1
    · rw [h1, Nat.mod_self]
    · rw [Nat.mod_eq_of_lt (by omega)]
  rw [h]

/-- A successful write preserves well-formedness and the storage length. -/
theorem CircularBuffer.write_wf (cb cb' : CircularBuffer) (v : ℚ)
    (h : cb.write v = Except.ok cb') :
    cb'.wf ∧ cb'.buffer.length = cb.buffer.length := by
  unfold CircularBuffer.write at h
  split_ifs at h with h1 h2 <;> cases h <;>
    exact ⟨by simp only [CircularBuffer.wf, List.length_set]; omega, by simp⟩

/-- Unfolding a write sequence from the right. -/
theorem writeSeq_append_singleton (cb : CircularBuffer) (ws : List ℚ) (v : ℚ) :
    writeSeq cb (ws ++ [v]) =
      match writeSeq cb ws with
      | Except.ok cb' => cb'.write v
      | Except.error e => Except.error e := by
  induction ws generalizing cb with
  | nil =>
    simp only [List.nil_append, writeSeq]
    cases hcb : cb.write v with
    | ok cb' => simp [writeSeq]
    | error e => simp [writeSeq]
  | cons a as ihs =>
    simp only [List.cons_append, writeSeq]
    cases hcb : cb.write a with
    | ok cb' => exact ihs cb'
    | error e => rfl

/-- State reached by writing the list `ws` into a fresh buffer of positive
capacity `C`: all writes succeed, the cursor ends at `ws.length % C`, and the
slot `j % C` holds `ws[j]` for every `j` among the last `C` writes. -/
theorem writeSeq_spec (C : Nat) (hC : 1 ≤ C) (ws : List ℚ) :
    ∃ st, writeSeq (CircularBuffer.new C) ws = Except.ok st ∧
      st.buffer.length = C ∧ st.write_index = ws.length % C ∧
      ∀ j, j < ws.length → ws.length ≤ j + C →
        st.buffer[j % C]? = ws[j]? := by
  induction ws using List.reverseRecOn with
  | nil =>
    refine ⟨CircularBuffer.new C, rfl, ?_, ?_, ?_⟩
    · simp [CircularBuffer.new]
    · simp [CircularBuffer.new]
    · intro j hj hcap
      simp at hj
  | append_singleton ws v ih =>
    obtain ⟨st, hrun, hlen, hcur, hslot⟩ := ih
    have hwf : st.wf := by
      unfold CircularBuffer.wf
      rw [hlen, hcur]
      exact Nat.mod_lt _ (by omega)
    have hw := CircularBuffer.write_ok st v hwf
    have happ : writeSeq (CircularBuffer.new C) (ws ++ [v]) =
        Except.ok { buffer := st.buffer.set st.write_index v
                    write_index := (st.write_index + 1) % st.buffer.length } := by
      simp only [writeSeq_append_singleton, hrun]
      exact hw
    refine ⟨_, happ, ?_, ?_, ?_⟩
    · simpa using hlen
    · simp only [List.length_set, List.length_append, List.length_singleton]
      rw [hlen, hcur, Nat.mod_add_mod]
    · intro j hj hcap
      simp only [List.length_append, List.length_singleton] at hj hcap
      rcases Nat.lt_or_ge j ws.length with hlt | hge
      · have hne : st.write_index ≠ j % C := by
          rw [hcur]
          intro heq
          have hmod : j ≡ ws.length [MOD C] := by
            unfold Nat.ModEq
            omega
          have hdvd := (Nat.modEq_iff_dvd' (by omega)).mp hmod
          have := Nat.le_of_dvd (by omega) hdvd
          omega
        rw [List.getElem?_set_ne hne, hslot j hlt (by omega),
          List.getElem?_append_left hlt]
      · have hj' : j = ws.length := by omega
        subst hj'
        have hwf' : st.write_index < st.buffer.length := hwf
        rw [← hcur, List.getElem?_set_self hwf', List.getElem?_concat_length]

/-- Reading back after a write sequence: for any writes `w_0 … w_{n-1}` into
a fresh buffer of capacity `C` with `1 ≤ C ≤ 2^31`, and any
`1 ≤ k ≤ min n C`, `read k` returns `w_{n-k}`. -/
theorem writeSeq_read (C : Nat) (ws : List ℚ) (k : Nat) (hC1 : 1 ≤ C)
    (hC2 : C ≤ 2147483648) (hk1 : 1 ≤ k) (hkn : k ≤ ws.length) (hkC : k ≤ C) :
    (writeSeq (CircularBuffer.new C) ws).bind (fun st => st.read k) =
      Except.ok (ws.getD (ws.length - k) 0) := by
  obtain ⟨st, hrun, hlen, hcur, hslot⟩ := writeSeq_spec C hC1 ws
  rw [hrun]
  show st.read k = _
  have hwf : st.wf := by
    unfold CircularBuffer.wf
    rw [hlen, hcur]
    exact Nat.mod_lt _ (by omega)
  rw [CircularBuffer.read_ok st k hwf (by omega) (by omega)]
  congr 1
  have hidx : (st.write_index + st.buffer.length - k) % st.buffer.length
      = (ws.length - k) % C := by
    rw [hlen, hcur]
    have h1 : ws.length % C + C - k = ws.length % C + (C - k) := by omega
    rw [h1, Nat.mod_add_mod]
    have h2 : ws.length + (C - k) = (ws.length - k) + C := by omega
    rw [h2, Nat.add_mod_right]
  rw [hidx, List.getD_eq_getElem?_getD, List.getD_eq_getElem?_getD,
    hslot (ws.length - k) (by omega) (by omega)]

/-- Writing `m` zeros into an all-zero buffer advances only the cursor (as
long as the segment does not pass the capacity boundary more than once). -/
theorem writeSeq_zeros (C : Nat) (_hC : 1 ≤ C) (m : Nat) :
    ∀ w, w < C → w + m ≤ C →
    writeSeq { buffer := List.replicate C 0, write_index := w }
        (List.replicate m 0) =
      Except.ok { buffer := List.replicate C 0, write_index := (w + m) % C } := by
  induction m with
  | zero =>
    intro w hw hwm
    simp [writeSeq, Nat.mod_eq_of_lt hw]
  | succ m ih =>
    intro w hw hwm
    rw [List.replicate_succ]
    have hwf : ({ buffer := List.replicate C 0, write_index := w }
        : CircularBuffer).wf := by
      simp [CircularBuffer.wf, hw]
    have hstep := CircularBuffer.write_ok
      { buffer := List.replicate C 0, write_index := w } 0 hwf
    simp only [writeSeq, hstep, List.set_replicate_self, List.length_replicate]
    rcases Nat.lt_or_ge (w + 1) C with hlt | hge
    · rw [Nat.mod_eq_of_lt hlt, ih (w + 1) hlt (by omega)]
      have harg : w + 1 + m = w + (m + 1) := by omega
      rw [harg]
    · have hC' : w + 1 = C := by omega
      have hm : m = 0 := by omega
      subst hm
      rw [hC', Nat.mod_self]
      simp [writeSeq, hC', Nat.mod_self]

/-- Successful tick: under the same bounds as `read_ok`, `tick` returns the
sample read from the pre-tick state, and the post-tick state is the pre-tick
state with `input + output * feedback` written at the old cursor. -/
theorem SimpleDelay.tick_spec (d : SimpleDelay) (i f : ℚ) (ds : F32)
    (hwf : d.buffer.wf) (hcap : d.buffer.buffer.length ≤ 2147483648)
    (hd : ds.toUsize ≤ d.buffer.buffer.length) :
    ∃ out cb', d.buffer.read ds.toUsize = Except.ok out ∧
      d.buffer.write (i + (out * f)) = Except.ok cb' ∧
      d.tick i ds f = Except.ok (out, { buffer := cb' }) ∧
      cb'.write_index = (d.buffer.write_index + 1) % d.buffer.buffer.length ∧
      cb'.buffer.length = d.buffer.buffer.length := by
  refine ⟨_, _, CircularBuffer.read_ok _ _ hwf hcap hd,
    CircularBuffer.write_ok _ _ hwf, ?_, ?_, ?_⟩
  · simp only [SimpleDelay.tick, CircularBuffer.read_ok _ _ hwf hcap hd,
      CircularBuffer.write_ok _ _ hwf]
  · rfl
  · simp

/-! ### Pointwise evaluation lemmas

`read` evaluated through given facts about the state, keeping the state
abstract (instantiating `read`'s body directly at a `2^32`-element
`List.replicate` literal makes the kernel attempt to materialise the
list). -/

/-- Evaluate a successful `read` from pointwise facts about the state. -/
theorem CircularBuffer.read_eval_ok (cb : CircularBuffer) (k len i : Nat)
    (v : ℚ) (hlen : cb.buffer.length = len) (hk : ¬ k > len)
    (hidx : usizeOfI32 (readIndexI32 cb.write_index k len) = i)
    (hr : cb.buffer[i]? = some v) :
    cb.read k = Except.ok v := by
  unfold CircularBuffer.read
  rw [hlen, if_neg hk, hidx, hr]

/-- Evaluate an out-of-bounds `read` from pointwise facts about the state. -/
theorem CircularBuffer.read_eval_oob (cb : CircularBuffer) (k len i : Nat)
    (hlen : cb.buffer.length = len) (hk : ¬ k > len)
    (hidx : usizeOfI32 (readIndexI32 cb.write_index k len) = i)
    (hr : cb.buffer[i]? = none) :
    cb.read k = Except.error DelayError.indexOutOfBounds := by
  unfold CircularBuffer.read
  rw [hlen, if_neg hk, hidx, hr]

/-! ### Behaviour at capacities beyond the `i32` range

At capacities above `2^31` the `as i32` casts in `read` lose information and
the computed slot no longer matches the mathematical modulo.  The following
evaluations drive the counterexamples; each is chosen so that the `i32`
subtraction and addition stay inside `[-2^31, 2^31)`, i.e. only the (always
well-defined, always wrapping) casts are exercised, so the behaviour is the
same whether or not overflow checks are enabled. -/

/-- At capacity `2^32` and cursor below `2^31`, `read 0` still lands on the
cursor slot of an all-zero buffer. -/
theorem read_zeros_cap_two_pow_32 (j : Nat) (hj : j < 2147483648) :
    CircularBuffer.read
      { buffer := List.replicate 4294967296 0, write_index := j } 0 =
      Except.ok 0 := by
  have hidx : usizeOfI32 (readIndexI32 j 0 4294967296) = j := by
    simp only [readIndexI32, i32ofNat, i32wrap, usizeOfI32]
    split_ifs <;> omega
  exact CircularBuffer.read_eval_ok _ 0 4294967296 j 0
    (List.length_replicate _ _) (by omega) hidx
    (List.getElem?_replicate_of_lt (by omega))

/-- At capacity `2^32` and cursor exactly `2^31`, the cast of the cursor is
negative (`2147483648 as i32 = -2^31`), the correction adds
`(4294967296 as i32) = 0`, and the final `as usize` sign-extends to a huge
index: `read 0` panics out of bounds. -/
theorem read_fail_cap_two_pow_32 :
    CircularBuffer.read
      { buffer := List.replicate 4294967296 0, write_index := 2147483648 } 0 =
      Except.error DelayError.indexOutOfBounds := by
  have hidx : usizeOfI32 (readIndexI32 2147483648 0 4294967296)
      = 18446744071562067968 := by
    simp only [readIndexI32, i32ofNat, i32wrap, usizeOfI32]
    split_ifs <;> omega
  exact CircularBuffer.read_eval_oob _ 0 4294967296 18446744071562067968
    (List.length_replicate _ _) (by omega) hidx
    (List.getElem?_eq_none (by rw [List.length_replicate]; omega))

/-- Evaluate a successful `tick` from facts about its read and write steps,
keeping the state abstract. -/
theorem SimpleDelay.tick_eval_ok (d : SimpleDelay) (i : ℚ) (ds : F32) (f : ℚ)
    (k : Nat) (hk : ds.toUsize = k) (out : ℚ)
    (hr : d.buffer.read k = Except.ok out)
    (v : ℚ) (hv : i + (out * f) = v) (cb' : CircularBuffer)
    (hw : d.buffer.write v = Except.ok cb') :
    d.tick i ds f = Except.ok (out, { buffer := cb' }) := by
  unfold SimpleDelay.tick
  rw [hk, hr]
  dsimp only
  rw [hv, hw]

/-- Evaluate an aborted `tick` whose read step panics, keeping the state
abstract. -/
theorem SimpleDelay.tick_eval_err (d : SimpleDelay) (i : ℚ) (ds : F32) (f : ℚ)
    (k : Nat) (hk : ds.toUsize = k) (e : DelayError)
    (hr : d.buffer.read k = Except.error e) :
    d.tick i ds f = Except.error e := by
  unfold SimpleDelay.tick
  rw [hk, hr]

/-- A write of `0` into an all-zero capacity-`2^32` buffer with cursor below
`2^31` stores nothing new and advances the cursor. -/
theorem write_zeros_cap_two_pow_32 (m : Nat) (hm : m < 2147483648) :
    CircularBuffer.write
      { buffer := List.replicate 4294967296 0, write_index := m } 0 =
      Except.ok { buffer := List.replicate 4294967296 0, write_index := m + 1 } := by
  have hwf : ({ buffer := List.replicate 4294967296 0, write_index := m }
      : CircularBuffer).wf := by
    show m < (List.replicate 4294967296 (0 : ℚ)).length
    rw [List.length_replicate]
    omega
  have hwr := CircularBuffer.write_ok
    { buffer := List.replicate 4294967296 0, write_index := m } 0 hwf
  dsimp only at hwr
  rw [List.set_replicate_self] at hwr
  rw [List.length_replicate] at hwr
  rw [Nat.mod_eq_of_lt (by omega)] at hwr
  exact hwr

/-- Unfolding one step of `tickN` once the prefix is known to succeed. -/
theorem tickN_succ_ok (d d' : SimpleDelay) (i : ℚ) (ds : F32) (f : ℚ) (m : Nat)
    (h : tickN d i ds f m = Except.ok d') :
    tickN d i ds f (m + 1) =
      match d'.tick i ds f with
      | Except.ok out => Except.ok out.2
      | Except.error e => Except.error e := by
  rw [tickN, h]

/-- One zero-input, zero-feedback, zero-delay tick on an all-zero
capacity-`2^32` buffer with cursor below `2^31`: the read succeeds, a `0` is
stored, and the cursor advances by one. -/
theorem tick_zeros_cap_two_pow_32 (m : Nat) (hm : m < 2147483648) :
    SimpleDelay.tick
      { buffer := { buffer := List.replicate 4294967296 0, write_index := m } }
      0 (F32.finite 0) 0 =
      Except.ok (0, { buffer :=
        { buffer := List.replicate 4294967296 0, write_index := m + 1 } }) :=
  SimpleDelay.tick_eval_ok _ 0 (F32.finite 0) 0 0 (by norm_num [F32.toUsize])
    0 (read_zeros_cap_two_pow_32 m hm) 0 (by norm_num) _
    (write_zeros_cap_two_pow_32 m hm)

/-- Zero ticks on a fresh capacity-`2^32` delay proceed normally for the
first `2^31` steps, leaving an all-zero buffer with the cursor at the number
of ticks performed. -/
theorem tickN_zeros_cap_two_pow_32 (m : Nat) (hm : m ≤ 2147483648) :
    tickN (SimpleDelay.new 4294967296) 0 (F32.finite 0) 0 m =
      Except.ok { buffer :=
        { buffer := List.replicate 4294967296 0, write_index := m } } := by
  induction m with
  | zero => rfl
  | succ m ih =>
    rw [tickN_succ_ok _ _ _ _ _ _ (ih (by omega))]
    rw [tick_zeros_cap_two_pow_32 m (by omega)]

/-! ### Evaluations at capacity `2^31 + 1`

After `2^31 + 1` writes into a fresh buffer of capacity `2^31 + 1` the
cursor is back at 0, and a full-capacity read computes
`0 - ((2147483649 as i32) = -2147483647) = 2147483647` — in range for
`i32`, non-negative, so no correction is applied and slot `2147483647` is
returned instead of slot `0`.  Only casts wrap; the `i32` subtraction does
not overflow, so this is the behaviour under either compilation profile. -/

theorem read_cex_cap_2pow31_plus_1 :
    CircularBuffer.read
      { buffer := (1 : ℚ) :: List.replicate 2147483648 0, write_index := 0 }
      2147483649 = Except.ok 0 := by
  have hlen : ((1 : ℚ) :: List.replicate 2147483648 0).length = 2147483649 := by
    rw [List.length_cons, List.length_replicate]
  have hidx : usizeOfI32 (readIndexI32 0 2147483649 2147483649)
      = 2147483647 := by
    simp only [readIndexI32, i32ofNat, i32wrap, usizeOfI32]
    split_ifs <;> omega
  have hr : ((1 : ℚ) :: List.replicate 2147483648 0)[2147483647]? = some 0 := by
    rw [List.getElem?_cons, if_neg (by norm_num)]
    rw [show (2147483647 - 1 : Nat) = 2147483646 from rfl]
    exact List.getElem?_replicate_of_lt (by omega)
  exact CircularBuffer.read_eval_ok _ 2147483649 2147483649 2147483647 0
    hlen (by omega) hidx hr

/-! ### Claims -/

/-- C1 (amended: capacity additionally bounded by `2^31`): for every buffer
of capacity `C` with `1 ≤ C ≤ 2^31`, every sequence of writes
`w_0 … w_{n-1}` applied to it, and every `k` with `1 ≤ k ≤ min n C`,
`read k` returns `w_{n-k}` — the k-th most recently written value —
regardless of how many times the write cursor has wrapped around. -/
theorem c1_read_returns_kth_most_recent (C : Nat) (ws : List ℚ) (k : Nat)
    (hC1 : 1 ≤ C) (hC2 : C ≤ 2147483648) (hk1 : 1 ≤ k) (hkn : k ≤ ws.length)
    (hkC : k ≤ C) :
    (writeSeq (CircularBuffer.new C) ws).bind (fun st => st.read k) =
      Except.ok (ws.getD (ws.length - k) 0) :=
  writeSeq_read C ws k hC1 hC2 hk1 hkn hkC

/-- Witness for C1 at the spec's own end-to-end scenario: capacity 4, writes
`[1, 2, 3, 4]`; `read 1 = 4` (and, via a second application, `read 4 = 1`). -/
theorem c1_witness :
    (1 ≤ 4 ∧ 4 ≤ 2147483648 ∧ 1 ≤ 1 ∧ 1 ≤ [(1 : ℚ), 2, 3, 4].length) ∧
    (writeSeq (CircularBuffer.new 4) [(1 : ℚ), 2, 3, 4]).bind
      (fun st => st.read 1) = Except.ok 4 ∧
    (writeSeq (CircularBuffer.new 4) [(1 : ℚ), 2, 3, 4]).bind
      (fun st => st.read 4) = Except.ok 1 := by
  refine ⟨⟨by norm_num, by norm_num, by norm_num, by norm_num⟩, ?_, ?_⟩
  · exact c1_read_returns_kth_most_recent 4 [(1 : ℚ), 2, 3, 4] 1
      (by norm_num) (by norm_num) (by norm_num) (by norm_num) (by norm_num)
  · exact c1_read_returns_kth_most_recent 4 [(1 : ℚ), 2, 3, 4] 4
      (by norm_num) (by norm_num) (by norm_num) (by norm_num) (by norm_num)

/-- Counterexample to C1 as stated (without the `2^31` capacity bound): at
capacity `C = 2^31 + 1 = 2147483649`, after the `n = C` writes
`1, 0, 0, …, 0`, `read C` must return `w_{n-C} = w_0 = 1`, but the code
returns slot `2147483647`, which holds `0`.  (`write_index as i32 -
length_samples as i32` is `0 - (-2147483647) = 2147483647`: in range, not
negative, never corrected.) -/
theorem c1_counterexample :
    (writeSeq (CircularBuffer.new 2147483649)
        ((1 : ℚ) :: List.replicate 2147483648 0)).bind
      (fun st => st.read 2147483649) = Except.ok 0 ∧
    ((1 : ℚ) :: List.replicate 2147483648 0).getD
      (((1 : ℚ) :: List.replicate 2147483648 0).length - 2147483649) 0 = 1 ∧
    (0 : ℚ) ≠ 1 := by
  have hlenws : ((1 : ℚ) :: List.replicate 2147483648 0).length
      = 2147483649 := by
    rw [List.length_cons, List.length_replicate]
  refine ⟨?_, ?_, by norm_num⟩
  · obtain ⟨st, hrun, hlen, hcur, hslot⟩ :=
      writeSeq_spec 2147483649 (by norm_num)
        ((1 : ℚ) :: List.replicate 2147483648 0)
    rw [hrun]
    show st.read 2147483649 = Except.ok 0
    rw [hlenws] at hcur hslot
    have hcur0 : st.write_index = 0 := by
      rw [hcur, Nat.mod_self]
    have hidx : usizeOfI32
        (readIndexI32 st.write_index 2147483649 2147483649)
        = 2147483647 := by
      rw [hcur0]
      simp only [readIndexI32, i32ofNat, i32wrap, usizeOfI32]
      split_ifs <;> omega
    have hr : st.buffer[2147483647]? = some 0 := by
      have h := hslot 2147483647 (by omega) (by omega)
      rw [Nat.mod_eq_of_lt (by omega)] at h
      rw [h, List.getElem?_cons, if_neg (by norm_num)]
      rw [show (2147483647 - 1 : Nat) = 2147483646 from rfl]
      exact List.getElem?_replicate_of_lt (by omega)
    exact CircularBuffer.read_eval_ok st 2147483649 2147483649 2147483647 0
      hlen (by omega) hidx hr
  · rw [hlenws]
    rw [show (2147483649 - 2147483649 : Nat) = 0 from rfl]
    rfl

/-- C2 (amended: capacity additionally bounded by `2^31`): for every
well-formed buffer of capacity `1 ≤ C ≤ 2^31` and every
`0 ≤ length_samples ≤ C`, `read length_samples` returns the storage element
at index `(write_cursor - length_samples) mod C`, computed with true
mathematical (non-negative) modulo on `ℤ`.  Non-destructiveness and
idempotence are structural in the embedding: `read` is a pure function of
the state (the Rust signature takes `&self`), so it cannot move the cursor
or mutate storage, and repeated calls with no intervening write are calls of
the same function on the same arguments. -/
theorem c2_read_mathematical_modulo (cb : CircularBuffer) (k : Nat)
    (hwf : cb.wf) (hcap : cb.buffer.length ≤ 2147483648)
    (hk : k ≤ cb.buffer.length) :
    cb.read k = Except.ok (cb.buffer.getD
      ((((cb.write_index : Int) - (k : Int)) % (cb.buffer.length : Int)).toNat)
      0) := by
  rw [CircularBuffer.read_ok cb k hwf hcap hk]
  have h := (usizeOfI32_readIndex cb.write_index k cb.buffer.length
      hwf hk hcap).symm.trans
    (usizeOfI32_readIndex_emod cb.write_index k cb.buffer.length hwf hk hcap)
  rw [h]

/-- Witness for C2: buffer `[1, 2, 3, 4]` with cursor 2, `read 3` returns
the slot `((2 - 3) mod 4) = 3`, i.e. the value `4`. -/
theorem c2_witness :
    (({ buffer := [(1 : ℚ), 2, 3, 4], write_index := 2 }
        : CircularBuffer).wf ∧
      ({ buffer := [(1 : ℚ), 2, 3, 4], write_index := 2 }
        : CircularBuffer).buffer.length ≤ 2147483648 ∧
      3 ≤ ({ buffer := [(1 : ℚ), 2, 3, 4], write_index := 2 }
        : CircularBuffer).buffer.length) ∧
    ({ buffer := [(1 : ℚ), 2, 3, 4], write_index := 2 }
      : CircularBuffer).read 3 = Except.ok 4 ∧
    (((2 : Int) - 3) % 4).toNat = 3 := by
  refine ⟨⟨by decide, by decide, by decide⟩, ?_, by decide⟩
  have h := c2_read_mathematical_modulo
    { buffer := [(1 : ℚ), 2, 3, 4], write_index := 2 } 3
    (by decide) (by decide) (by decide)
  exact h

/-- Counterexample to C2 as stated (without the `2^31` capacity bound): the
well-formed buffer of capacity `2^31 + 1` holding `1` at slot 0 with the
cursor at 0 (the state reached by the writes of `c1_counterexample`).  The
claimed slot is `((0 - 2147483649) mod 2147483649) = 0`, holding `1`, but
`read 2147483649` returns `0` (slot `2147483647`). -/
theorem c2_counterexample :
    ({ buffer := (1 : ℚ) :: List.replicate 2147483648 0, write_index := 0 }
      : CircularBuffer).wf ∧
    CircularBuffer.read
      { buffer := (1 : ℚ) :: List.replicate 2147483648 0, write_index := 0 }
      2147483649 = Except.ok 0 ∧
    ((1 : ℚ) :: List.replicate 2147483648 0).getD
      ((((0 : Int) - 2147483649) % 2147483649).toNat) 0 = 1 ∧
    (0 : ℚ) ≠ 1 := by
  refine ⟨?_, read_cex_cap_2pow31_plus_1, ?_, by norm_num⟩
  · show 0 < ((1 : ℚ) :: List.replicate 2147483648 0).length
    rw [List.length_cons, List.length_replicate]
    omega
  · rw [show ((((0 : Int) - 2147483649) % 2147483649).toNat) = 0 from by omega]
    rfl

/-- C3 (amended: the success of in-range reads, and the tick equivalence,
additionally assume a well-formed state of capacity at most `2^31`): `read`
signals `requestedDelayExceedsCapacity` exactly when `k > C` (with no bound
on the capacity — the guard runs first, on unconverted `usize` values), an
in-range request `k ≤ C` succeeds (so `read C` succeeds), and `tick` fails
exactly when the truncated `delay_samples` exceeds the capacity. -/
theorem c3_error_iff_exceeds_capacity :
    (∀ (cb : CircularBuffer) (k : Nat),
      cb.read k = Except.error DelayError.requestedDelayExceedsCapacity ↔
        k > cb.buffer.length) ∧
    (∀ (cb : CircularBuffer) (k : Nat), cb.wf →
      cb.buffer.length ≤ 2147483648 → k ≤ cb.buffer.length →
      ∃ v, cb.read k = Except.ok v) ∧
    (∀ (d : SimpleDelay) (i f : ℚ) (ds : F32), d.buffer.wf →
      d.buffer.buffer.length ≤ 2147483648 →
      ((∃ e, d.tick i ds f = Except.error e) ↔
        ds.toUsize > d.buffer.buffer.length)) := by
  refine ⟨fun cb k => CircularBuffer.read_rdec_iff cb k, ?_, ?_⟩
  · intro cb k hwf hcap hk
    exact ⟨_, CircularBuffer.read_ok cb k hwf hcap hk⟩
  · intro d i f ds hwf hcap
    constructor
    · rintro ⟨e, he⟩
      by_contra hle
      push_neg at hle
      obtain ⟨out, cb', _, _, h3, _, _⟩ :=
        SimpleDelay.tick_spec d i f ds hwf hcap hle
      rw [h3] at he
      exact absurd he (by simp)
    · intro hgt
      exact ⟨DelayError.requestedDelayExceedsCapacity,
        SimpleDelay.tick_eval_err d i ds f ds.toUsize rfl _
          ((CircularBuffer.read_rdec_iff _ _).mpr hgt)⟩

/-- Witness for C3: on a capacity-3 buffer, `read 5` fails with the
capacity error, `read 3` succeeds, and a tick with `delay_samples = 5.0`
fails. -/
theorem c3_witness :
    (({ buffer := [(0 : ℚ), 0, 0], write_index := 1 }
        : CircularBuffer).read 5 =
      Except.error DelayError.requestedDelayExceedsCapacity ∧ 5 > 3) ∧
    (∃ v, ({ buffer := [(0 : ℚ), 0, 0], write_index := 1 }
        : CircularBuffer).read 3 = Except.ok v) ∧
    (∃ e, ({ buffer := { buffer := [(0 : ℚ), 0, 0], write_index := 1 } }
        : SimpleDelay).tick 0 (F32.finite 5) 0 = Except.error e) := by
  refine ⟨⟨?_, by norm_num⟩, ?_, ?_⟩
  · exact (c3_error_iff_exceeds_capacity.1 _ 5).mpr (by decide)
  · exact c3_error_iff_exceeds_capacity.2.1 _ 3 (by decide) (by decide)
      (by decide)
  · refine (c3_error_iff_exceeds_capacity.2.2 _ 0 0 (F32.finite 5)
      (by decide) (by decide)).mpr ?_
    have h : (F32.finite 5).toUsize = 5 := by decide
    rw [h]
    decide

/-- Composition helper: evaluate a run of writes followed by one read,
without ever re-evaluating the intermediate state. -/
theorem bind_read_of_writeSeq (cb st : CircularBuffer) (ws : List ℚ)
    (k : Nat) (h : writeSeq cb ws = Except.ok st)
    (r : Except DelayError ℚ) (hr : st.read k = r) :
    (writeSeq cb ws).bind (fun st => st.read k) = r := by
  rw [h]
  exact hr

/-- Counterexample to C3's "read(C) succeeds" without the capacity bound:
at capacity `2^32`, after `2^31` writes (cursor `2^31`), the full-capacity
read `read (2^32)` panics with an out-of-bounds index instead of
succeeding, even though `k = C ≤ C`:  the cursor casts to `-2^31`, the
capacity casts to `0`, and `-2^31 as usize` is far beyond the storage. -/
theorem c3_counterexample :
    (writeSeq (CircularBuffer.new 4294967296)
        (List.replicate 2147483648 0)).bind
      (fun st => st.read 4294967296) =
      Except.error DelayError.indexOutOfBounds := by
  have hws := writeSeq_zeros 4294967296 (by norm_num) 2147483648 0
    (by norm_num) (by norm_num)
  rw [Nat.zero_add] at hws
  rw [Nat.mod_eq_of_lt (by norm_num)] at hws
  have hidx : usizeOfI32 (readIndexI32 2147483648 4294967296 4294967296)
      = 18446744071562067968 := by
    simp only [readIndexI32, i32ofNat, i32wrap, usizeOfI32]
    split_ifs <;> omega
  exact bind_read_of_writeSeq _ _ _ 4294967296 hws _
    (CircularBuffer.read_eval_oob _ 4294967296 4294967296
      18446744071562067968 (List.length_replicate _ _) (by omega) hidx
      (List.getElem?_eq_none (by rw [List.length_replicate]; omega)))

/-- C4 (amended: capacity additionally bounded by `2^31`): for every
well-formed `SimpleDelay` state and every call with
`truncate(delay_samples) ≤ capacity`, `tick` truncates `delay_samples`
toward zero to the integer count `delay_samples.toUsize` (the `as usize`
cast, which is how the embedding defines `F32.toUsize`), returns the value
of `read` on the buffer state strictly prior to the tick, and then writes
`input_sample + (delayed * feedback_amount)`, advancing the cursor by
one (mod capacity). -/
theorem c4_tick_decomposition (d : SimpleDelay) (i f : ℚ) (ds : F32)
    (hwf : d.buffer.wf) (hcap : d.buffer.buffer.length ≤ 2147483648)
    (hd : ds.toUsize ≤ d.buffer.buffer.length) :
    ∃ out cb',
      d.buffer.read ds.toUsize = Except.ok out ∧
      d.buffer.write (i + (out * f)) = Except.ok cb' ∧
      d.tick i ds f = Except.ok (out, { buffer := cb' }) ∧
      cb'.write_index = (d.buffer.write_index + 1) % d.buffer.buffer.length := by
  obtain ⟨out, cb', h1, h2, h3, h4, _⟩ :=
    SimpleDelay.tick_spec d i f ds hwf hcap hd
  exact ⟨out, cb', h1, h2, h3, h4⟩

/-- Witness for C4 at the spec's end-to-end scenario 3: capacity 3, buffer
primed with `2.0` one slot behind the cursor; `tick(0.0, 1, 0.5)` returns
`2.0` and stores `0.0 + 2.0 * 0.5 = 1.0`, advancing the cursor. -/
theorem c4_witness :
    (({ buffer := { buffer := [(2 : ℚ), 0, 0], write_index := 1 } }
        : SimpleDelay).buffer.wf ∧
      (F32.finite 1).toUsize ≤ 3) ∧
    (∃ out cb',
      ({ buffer := { buffer := [(2 : ℚ), 0, 0], write_index := 1 } }
        : SimpleDelay).buffer.read (F32.finite 1).toUsize = Except.ok out ∧
      ({ buffer := { buffer := [(2 : ℚ), 0, 0], write_index := 1 } }
        : SimpleDelay).buffer.write (0 + (out * (1 / 2))) = Except.ok cb' ∧
      ({ buffer := { buffer := [(2 : ℚ), 0, 0], write_index := 1 } }
        : SimpleDelay).tick 0 (F32.finite 1) (1 / 2) =
        Except.ok (out, { buffer := cb' }) ∧
      cb'.write_index = (1 + 1) % 3) ∧
    ({ buffer := { buffer := [(2 : ℚ), 0, 0], write_index := 1 } }
      : SimpleDelay).tick 0 (F32.finite 1) (1 / 2) =
      Except.ok (2, { buffer := { buffer := [(2 : ℚ), 1, 0], write_index := 2 } }) := by
  refine ⟨⟨by decide, by decide⟩, ?_, ?_⟩
  · exact c4_tick_decomposition
      { buffer := { buffer := [(2 : ℚ), 0, 0], write_index := 1 } }
      0 (1 / 2) (F32.finite 1) (by decide) (by decide) (by decide)
  · exact SimpleDelay.tick_eval_ok _ 0 (F32.finite 1) (1 / 2) 1 (by decide)
      2 (by rfl) 1 (by norm_num) _ (by rfl)

/-- Counterexample to C4 as stated (without the `2^31` capacity bound): a
fresh capacity-`2^32` delay, after `2^31` zero ticks (all of which succeed),
has its cursor at `2^31`; the next tick with `delay_samples = 0` (so
`0 = truncate(delay_samples) ≤ capacity`) panics out of bounds inside
`read` instead of returning the delayed sample and writing — the cursor
casts to `-2^31` and no correction brings it back into range. -/
theorem c4_counterexample :
    tickN (SimpleDelay.new 4294967296) 0 (F32.finite 0) 0 2147483648 =
      Except.ok { buffer :=
        { buffer := List.replicate 4294967296 0, write_index := 2147483648 } } ∧
    (F32.finite 0).toUsize = 0 ∧
    ({ buffer :=
        { buffer := List.replicate 4294967296 0, write_index := 2147483648 } }
      : SimpleDelay).tick 0 (F32.finite 0) 0 =
      Except.error DelayError.indexOutOfBounds := by
  refine ⟨tickN_zeros_cap_two_pow_32 2147483648 (by norm_num), by decide, ?_⟩
  exact SimpleDelay.tick_eval_err _ 0 (F32.finite 0) 0 0 (by decide)
    DelayError.indexOutOfBounds read_fail_cap_two_pow_32

/-- C5 (corrected): `read 0` does not return the most recently written
value; it returns the slot the cursor points at — the *oldest* value still
in the buffer, the one about to be overwritten (the same slot as `read C`).
After `n ≥ C` writes into a fresh buffer of capacity `1 ≤ C ≤ 2^31` this is
`w_{n-C}`; it is not the current input (no input is involved in a read),
and it equals the most recently written value only in the degenerate case
`C = 1`. -/
theorem c5_read_zero_returns_oldest (C : Nat) (ws : List ℚ) (hC1 : 1 ≤ C)
    (hC2 : C ≤ 2147483648) (hn : C ≤ ws.length) :
    (writeSeq (CircularBuffer.new C) ws).bind (fun st => st.read 0) =
      Except.ok (ws.getD (ws.length - C) 0) ∧
    (writeSeq (CircularBuffer.new C) ws).bind (fun st => st.read 0) =
      (writeSeq (CircularBuffer.new C) ws).bind (fun st => st.read C) := by
  have hCfull := writeSeq_read C ws C hC1 hC2 (by omega) hn (le_refl C)
  obtain ⟨st, hrun, hlen, hcur, hslot⟩ := writeSeq_spec C hC1 ws
  have hwf : st.wf := by
    unfold CircularBuffer.wf
    rw [hlen, hcur]
    exact Nat.mod_lt _ (by omega)
  have hwf' : st.write_index < C := by
    unfold CircularBuffer.wf at hwf
    rw [hlen] at hwf
    exact hwf
  have h0 : st.read 0 = st.read C := by
    rw [CircularBuffer.read_ok st 0 hwf (by omega) (by omega),
      CircularBuffer.read_ok st C hwf (by omega) (by omega)]
    have hi : (st.write_index + st.buffer.length - 0) % st.buffer.length
        = (st.write_index + st.buffer.length - C) % st.buffer.length := by
      rw [hlen, Nat.sub_zero, Nat.add_sub_cancel, Nat.add_mod_right,
        Nat.mod_eq_of_lt hwf']
    rw [hi]
  constructor
  · rw [hrun]
    show st.read 0 = _
    rw [h0]
    rw [hrun] at hCfull
    exact hCfull
  · rw [hrun]
    exact h0

/-- Witness for C5: capacity 4, writes `[1, 2, 3, 4]`: `read 0` returns the
oldest value `1` (= `read 4`), not the most recent `4`. -/
theorem c5_witness :
    (1 ≤ 4 ∧ 4 ≤ 2147483648 ∧ 4 ≤ [(1 : ℚ), 2, 3, 4].length) ∧
    (writeSeq (CircularBuffer.new 4) [(1 : ℚ), 2, 3, 4]).bind
      (fun st => st.read 0) = Except.ok 1 ∧
    (writeSeq (CircularBuffer.new 4) [(1 : ℚ), 2, 3, 4]).bind
      (fun st => st.read 0) =
    (writeSeq (CircularBuffer.new 4) [(1 : ℚ), 2, 3, 4]).bind
      (fun st => st.read 4) := by
  refine ⟨⟨by norm_num, by norm_num, by norm_num⟩, ?_, ?_⟩
  · exact (c5_read_zero_returns_oldest 4 [(1 : ℚ), 2, 3, 4]
      (by norm_num) (by norm_num) (by norm_num)).1
  · exact (c5_read_zero_returns_oldest 4 [(1 : ℚ), 2, 3, 4]
      (by norm_num) (by norm_num) (by norm_num)).2

/-- Counterexample to C5 as stated: after writing `[1, 2, 3, 4]` into a
fresh capacity-4 buffer, the most recently written value is `4`, but
`read 0` returns `1` (the oldest slot, about to be overwritten).  Moreover,
without a `2^31` capacity bound `read 0` need not return anything at all:
at capacity `2^32` with the cursor at `2^31` (reached by `2^31` writes) it
panics out of bounds. -/
theorem c5_counterexample :
    (writeSeq (CircularBuffer.new 4) [(1 : ℚ), 2, 3, 4]).bind
      (fun st => st.read 0) = Except.ok 1 ∧
    [(1 : ℚ), 2, 3, 4].getD ([(1 : ℚ), 2, 3, 4].length - 1) 0 = 4 ∧
    (1 : ℚ) ≠ 4 ∧
    (writeSeq (CircularBuffer.new 4294967296)
        (List.replicate 2147483648 0)).bind
      (fun st => st.read 0) = Except.error DelayError.indexOutOfBounds := by
  refine ⟨by rfl, by rfl, by norm_num, ?_⟩
  have hws := writeSeq_zeros 4294967296 (by norm_num) 2147483648 0
    (by norm_num) (by norm_num)
  rw [Nat.zero_add] at hws
  rw [Nat.mod_eq_of_lt (by norm_num)] at hws
  exact bind_read_of_writeSeq _ _ _ 0 hws _ read_fail_cap_two_pow_32

/-- A successful write in full detail: well-formedness is re-established,
the length is preserved, the cursor advances by one modulo the capacity,
and the storage is the old storage with the written slot replaced.  Success
itself implies the old cursor was in range (the indexing guard), so no
well-formedness hypothesis is needed. -/
theorem CircularBuffer.write_succ (cb cb' : CircularBuffer) (v : ℚ)
    (h : cb.write v = Except.ok cb') :
    cb'.wf ∧ cb'.buffer.length = cb.buffer.length ∧
      cb'.write_index = (cb.write_index + 1) % cb.buffer.length ∧
      cb'.buffer = cb.buffer.set cb.write_index v := by
  unfold CircularBuffer.write at h
  split_ifs at h with h1 h2 <;> cases h
  · refine ⟨?_, by simp, ?_, rfl⟩
    · simp only [CircularBuffer.wf, List.length_set]
      omega
    · show 0 = (cb.write_index + 1) % cb.buffer.length
      rw [h2, Nat.mod_self]
  · refine ⟨?_, by simp, ?_, rfl⟩
    · simp only [CircularBuffer.wf, List.length_set]
      omega
    · show cb.write_index + 1 = (cb.write_index + 1) % cb.buffer.length
      rw [Nat.mod_eq_of_lt (by omega)]

/-- A successful tick preserves well-formedness and the storage length. -/
theorem SimpleDelay.tick_wf (d : SimpleDelay) (i f : ℚ) (ds : F32)
    (out : ℚ) (d' : SimpleDelay) (h : d.tick i ds f = Except.ok (out, d')) :
    d'.buffer.wf ∧ d'.buffer.buffer.length = d.buffer.buffer.length := by
  unfold SimpleDelay.tick at h
  cases hr : d.buffer.read ds.toUsize with
  | error e =>
    rw [hr] at h
    exact absurd h (by simp)
  | ok output =>
    rw [hr] at h
    dsimp only at h
    cases hw : d.buffer.write (i + (output * f)) with
    | error e =>
      rw [hw] at h
      exact absurd h (by simp)
    | ok cb' =>
      rw [hw] at h
      dsimp only at h
      simp only [Except.ok.injEq, Prod.mk.injEq] at h
      obtain ⟨h1, h2⟩ := h
      subst h2
      have hs := CircularBuffer.write_succ _ _ _ hw
      exact ⟨hs.1, hs.2.1⟩

/-- C6 (confirmed): for every `CircularBuffer` constructed with capacity
`C ≥ 1`, the predicate `write_index < C` together with the storage length
being exactly `C` holds initially (with `write_index = 0`), and is preserved
by every successful `write` and `tick`; `read` takes the state immutably
and returns only a sample, so it cannot disturb the invariant.  After every
write the cursor has advanced past the slot just written, to
`(old cursor + 1) mod C` — the slot that receives the next sample. -/
theorem c6_invariant_preserved (C : Nat) :
    ((CircularBuffer.new C).write_index = 0 ∧
      (CircularBuffer.new C).buffer.length = C ∧
      (1 ≤ C → (CircularBuffer.new C).wf)) ∧
    (∀ (cb cb' : CircularBuffer) (v : ℚ), cb.write v = Except.ok cb' →
      cb'.wf ∧ cb'.buffer.length = cb.buffer.length ∧
        cb'.write_index = (cb.write_index + 1) % cb.buffer.length) ∧
    (∀ (d : SimpleDelay) (i f : ℚ) (ds : F32) (out : ℚ) (d' : SimpleDelay),
      d.tick i ds f = Except.ok (out, d') →
      d'.buffer.wf ∧ d'.buffer.buffer.length = d.buffer.buffer.length) := by
  refine ⟨⟨rfl, ?_, ?_⟩, ?_, ?_⟩
  · simp [CircularBuffer.new]
  · intro hC
    simp only [CircularBuffer.wf, CircularBuffer.new, List.length_replicate]
    omega
  · intro cb cb' v h
    have hs := CircularBuffer.write_succ cb cb' v h
    exact ⟨hs.1, hs.2.1, hs.2.2.1⟩
  · intro d i f ds out d' h
    exact SimpleDelay.tick_wf d i f ds out d' h

/-- Witness for C6: a fresh capacity-3 buffer, one concrete write and one
concrete tick, each preserving the invariant. -/
theorem c6_witness :
    ((CircularBuffer.new 3).write_index = 0 ∧
      (CircularBuffer.new 3).buffer.length = 3 ∧
      (CircularBuffer.new 3).wf) ∧
    (({ buffer := [(1 : ℚ), 2, 3], write_index := 1 }
        : CircularBuffer).write 9 =
      Except.ok { buffer := [(1 : ℚ), 9, 3], write_index := 2 } ∧
      ({ buffer := [(1 : ℚ), 9, 3], write_index := 2 }
        : CircularBuffer).wf ∧
      (2 : Nat) = (1 + 1) % 3) ∧
    (∀ out d', ({ buffer := { buffer := [(1 : ℚ), 2, 3], write_index := 1 } }
        : SimpleDelay).tick 0 (F32.finite 1) 0 = Except.ok (out, d') →
      d'.buffer.wf ∧ d'.buffer.buffer.length = 3) := by
  have hw : ({ buffer := [(1 : ℚ), 2, 3], write_index := 1 }
      : CircularBuffer).write 9 =
      Except.ok { buffer := [(1 : ℚ), 9, 3], write_index := 2 } := by rfl
  refine ⟨⟨(c6_invariant_preserved 3).1.1, (c6_invariant_preserved 3).1.2.1,
    (c6_invariant_preserved 3).1.2.2 (by norm_num)⟩, ⟨hw, ?_, ?_⟩, ?_⟩
  · exact ((c6_invariant_preserved 3).2.1 _ _ 9 hw).1
  · exact ((c6_invariant_preserved 3).2.1 _ _ 9 hw).2.2
  · intro out d' h
    exact (c6_invariant_preserved 3).2.2 _ 0 0 (F32.finite 1) out d' h

/-- C7 (confirmed): for every well-formed buffer and value, `write v`
succeeds, stores `v` in exactly the slot indexed by the current cursor,
leaves every other slot unchanged, preserves the storage length, and
advances the cursor by one, wrapping to 0 at the capacity.  (The Rust
method returns `()`; in the embedding the "no return value" is the absence
of any payload besides the updated state.) -/
theorem c7_write_mutates_one_slot (cb : CircularBuffer) (v : ℚ)
    (hwf : cb.wf) :
    ∃ cb', cb.write v = Except.ok cb' ∧
      cb'.buffer[cb.write_index]? = some v ∧
      (∀ j, j ≠ cb.write_index → cb'.buffer[j]? = cb.buffer[j]?) ∧
      cb'.write_index = (cb.write_index + 1) % cb.buffer.length ∧
      cb'.buffer.length = cb.buffer.length := by
  refine ⟨_, CircularBuffer.write_ok cb v hwf, ?_, ?_, rfl, by simp⟩
  · exact List.getElem?_set_self hwf
  · intro j hj
    exact List.getElem?_set_ne (Ne.symm hj)

/-- Witness for C7: writing `9` into `[1, 2, 3, 4]` at cursor 2 yields
`[1, 2, 9, 4]` with cursor 3. -/
theorem c7_witness :
    ({ buffer := [(1 : ℚ), 2, 3, 4], write_index := 2 }
      : CircularBuffer).wf ∧
    (∃ cb', ({ buffer := [(1 : ℚ), 2, 3, 4], write_index := 2 }
        : CircularBuffer).write 9 = Except.ok cb' ∧
      cb'.buffer[2]? = some 9 ∧
      (∀ j, j ≠ 2 → cb'.buffer[j]? =
        ([(1 : ℚ), 2, 3, 4] : List ℚ)[j]?) ∧
      cb'.write_index = (2 + 1) % 4 ∧
      cb'.buffer.length = 4) ∧
    ({ buffer := [(1 : ℚ), 2, 3, 4], write_index := 2 }
      : CircularBuffer).write 9 =
      Except.ok { buffer := [(1 : ℚ), 2, 9, 4], write_index := 3 } := by
  refine ⟨by decide, ?_, by rfl⟩
  exact c7_write_mutates_one_slot
    { buffer := [(1 : ℚ), 2, 3, 4], write_index := 2 } 9 (by decide)

/-- C8 (confirmed): `seconds_to_samples` is a pure function of its two
arguments, equal to the sample rate (converted to a float, modelled as the
cast `Nat → ℚ`) times the seconds; in particular
`seconds_to_samples 1.0 48000 = 48000.0` and
`seconds_to_samples 0.0 r = 0.0` for every sample rate `r`. -/
theorem c8_seconds_to_samples_spec :
    (∀ (s : ℚ) (r : Nat), seconds_to_samples s r = (r : ℚ) * s) ∧
    seconds_to_samples 1 48000 = 48000 ∧
    (∀ r : Nat, seconds_to_samples 0 r = 0) := by
  refine ⟨fun s r => rfl, ?_, fun r => ?_⟩
  · norm_num [seconds_to_samples]
  · simp [seconds_to_samples]

/-- C9 (amended: "does not fail" additionally assumes a well-formed state
of capacity at most `2^31`; the equivalence with a zero-delay tick holds
unconditionally): when `delay_samples` is NaN, negative, or negative
infinity, the `as usize` conversion saturates to 0 rather than truncating
to a negative count, so the tick behaves identically to a tick with
`delay_samples = 0`, and in particular succeeds whenever a zero-delay tick
does. -/
theorem c9_negative_or_nan_saturates (d : SimpleDelay) (i f : ℚ) (ds : F32)
    (hneg : ds = F32.nan ∨ ds = F32.negInf ∨
      ∃ q, ds = F32.finite q ∧ q < 0) :
    ds.toUsize = 0 ∧
    d.tick i ds f = d.tick i (F32.finite 0) f ∧
    (d.buffer.wf → d.buffer.buffer.length ≤ 2147483648 →
      ∃ out d', d.tick i ds f = Except.ok (out, d')) := by
  have h0 : ds.toUsize = 0 := by
    rcases hneg with h | h | ⟨q, h, hq⟩
    · subst h
      rfl
    · subst h
      rfl
    · subst h
      simp only [F32.toUsize]
      rw [if_pos (le_of_lt hq)]
  have h0' : (F32.finite 0).toUsize = 0 := by
    norm_num [F32.toUsize]
  refine ⟨h0, ?_, ?_⟩
  · unfold SimpleDelay.tick
    rw [h0, h0']
  · intro hwf hcap
    obtain ⟨out, cb', _, _, h3, _, _⟩ :=
      SimpleDelay.tick_spec d i f ds hwf hcap (by rw [h0]; omega)
    exact ⟨out, _, h3⟩

/-- Witness for C9: on the buffer `[5, 6]` with cursor 1, a tick with
`delay_samples = -1.5` behaves exactly like a zero-delay tick: it returns
the slot at the cursor (`6`) and stores `1 + 6 * 0.5 = 4`. -/
theorem c9_witness :
    ((F32.finite (-3 / 2)) = F32.nan ∨ (F32.finite (-3 / 2)) = F32.negInf ∨
      ∃ q, (F32.finite (-3 / 2)) = F32.finite q ∧ q < 0) ∧
    (F32.finite (-3 / 2)).toUsize = 0 ∧
    ({ buffer := { buffer := [(5 : ℚ), 6], write_index := 1 } }
      : SimpleDelay).tick 1 (F32.finite (-3 / 2)) (1 / 2) =
      ({ buffer := { buffer := [(5 : ℚ), 6], write_index := 1 } }
        : SimpleDelay).tick 1 (F32.finite 0) (1 / 2) ∧
    ({ buffer := { buffer := [(5 : ℚ), 6], write_index := 1 } }
      : SimpleDelay).tick 1 (F32.finite (-3 / 2)) (1 / 2) =
      Except.ok (6, { buffer :=
        { buffer := [(5 : ℚ), 4], write_index := 0 } }) := by
  have hneg : (F32.finite (-3 / 2)) = F32.nan ∨
      (F32.finite (-3 / 2)) = F32.negInf ∨
      ∃ q, (F32.finite (-3 / 2)) = F32.finite q ∧ q < 0 :=
    Or.inr (Or.inr ⟨-3 / 2, rfl, by norm_num⟩)
  have h := c9_negative_or_nan_saturates
    { buffer := { buffer := [(5 : ℚ), 6], write_index := 1 } }
    1 (1 / 2) (F32.finite (-3 / 2)) hneg
  refine ⟨hneg, h.1, h.2.1, ?_⟩
  exact SimpleDelay.tick_eval_ok _ 1 (F32.finite (-3 / 2)) (1 / 2) 0
    (by norm_num [F32.toUsize]) 6 (by rfl) 4 (by norm_num) _ (by rfl)

/-- Counterexample to C9's "the tick does not fail" without the capacity
bound: a fresh capacity-`2^32` delay, after `2^31` zero-delay ticks (all of
which succeed), panics out of bounds on the next tick even though its
`delay_samples = -1.0` saturates to 0 — because `read 0` itself panics at
cursor `2^31`.  The failure is identical to that of a zero-delay tick, so
the saturation equivalence holds; the unconditional "does not fail" does
not. -/
theorem c9_counterexample :
    tickN (SimpleDelay.new 4294967296) 0 (F32.finite 0) 0 2147483648 =
      Except.ok { buffer :=
        { buffer := List.replicate 4294967296 0, write_index := 2147483648 } } ∧
    (-1 : ℚ) < 0 ∧
    ({ buffer :=
        { buffer := List.replicate 4294967296 0, write_index := 2147483648 } }
      : SimpleDelay).tick 0 (F32.finite (-1)) 0 =
      Except.error DelayError.indexOutOfBounds := by
  refine ⟨tickN_zeros_cap_two_pow_32 2147483648 (by norm_num),
    by norm_num, ?_⟩
  exact SimpleDelay.tick_eval_err _ 0 (F32.finite (-1)) 0 0
    (by norm_num [F32.toUsize]) _ read_fail_cap_two_pow_32

/-- C10 (confirmed): constructing a `CircularBuffer` (or `SimpleDelay`)
with capacity 0 returns normally (the constructor is total: it yields the
empty storage with cursor 0); on the resulting buffer the first `write`
and `read 0` fail with the out-of-bounds index panic (not the capacity
error), while `read k` for `k > 0` fails with
`requestedDelayExceedsCapacity`. -/
theorem c10_zero_capacity :
    ((CircularBuffer.new 0).buffer.length = 0 ∧
      (CircularBuffer.new 0).write_index = 0 ∧
      (SimpleDelay.new 0).buffer.buffer.length = 0) ∧
    (∀ v : ℚ, (CircularBuffer.new 0).write v =
      Except.error DelayError.indexOutOfBounds) ∧
    (CircularBuffer.new 0).read 0 =
      Except.error DelayError.indexOutOfBounds ∧
    (∀ k : Nat, k > 0 → (CircularBuffer.new 0).read k =
      Except.error DelayError.requestedDelayExceedsCapacity) := by
  refine ⟨⟨rfl, rfl, rfl⟩, fun v => rfl, rfl, fun k hk => ?_⟩
  unfold CircularBuffer.read
  rw [if_pos]
  show k > (CircularBuffer.new 0).buffer.length
  simpa [CircularBuffer.new] using hk

/-- Witness for C10 at `k = 3`: a zero-capacity buffer rejects `read 3`
with the capacity error, while `write 5` and `read 0` panic out of
bounds. -/
theorem c10_witness :
    (3 > 0 ∧ (CircularBuffer.new 0).read 3 =
      Except.error DelayError.requestedDelayExceedsCapacity) ∧
    (CircularBuffer.new 0).write 5 =
      Except.error DelayError.indexOutOfBounds ∧
    (CircularBuffer.new 0).read 0 =
      Except.error DelayError.indexOutOfBounds := by
  refine ⟨⟨by norm_num, ?_⟩, ?_, ?_⟩
  · exact c10_zero_capacity.2.2.2 3 (by norm_num)
  · exact c10_zero_capacity.2.1 5
  · exact c10_zero_capacity.2.2.1
